import Mathlib

/-!
Verification development for the following-system controller
(`controllers/userController.js`, model `models/User.js`).

The store is embedded as a list of user documents.  MongoDB's
`findOneAndUpdate` is embedded as a function that updates the first
document matching a boolean predicate and returns the updated document
(`new: true` semantics).  Each controller endpoint becomes a pure
function from a store (plus the request parameters and the timestamps
taken by `new Date()`) to a classified result together with the store
after the call.  Errors are identified by the keys of
`UserResponseMessages` used in the controller.
-/

/-- An entry of a user's `followers` array: `{ followId, date }`
(who follows this user, and since when). -/
structure FollowerEntry where
  followId : String
  date : Nat
  deriving DecidableEq, Repr

/-- An entry of a user's `followings` array: `{ followingId, date }`
(whom this user follows, and since when). -/
structure FollowingEntry where
  followingId : String
  date : Nat
  deriving DecidableEq, Repr

/-- A user document of the `User` collection (`models/User.js`). -/
structure User where
  id : String
  username : String
  followers : List FollowerEntry
  followings : List FollowingEntry
  deriving DecidableEq, Repr

/-- The persistent store: the list of user documents. -/
abbrev Store := List User

/-- The error kinds the controller raises, named by the
`UserResponseMessages` keys it throws. -/
inductive UserError where
  | ERROR_USER_NAME
  | ERROR_EXIST_USER
  | ERROR_VALID_ID
  | ERROR_IDS_SAME
  | ERROR_UPDATE_FOLLOWING
  | ERROR_UPDATE_FOLLOWERS
  | ERROR_UPDATE_UNFOLLOWING
  | ERROR_UPDATE_UNFOLLOWERS
  | NOT_FOUND
  deriving DecidableEq, Repr

/-- Hexadecimal digit test, for ObjectId well-formedness. -/
def isHexDigit (c : Char) : Bool :=
  ('0' ≤ c && c ≤ '9') || ('a' ≤ c && c ≤ 'f') || ('A' ≤ c && c ≤ 'F')

/-- `mongoose.isValidObjectId` on a string: a 12-character string or a
24-character hexadecimal string. -/
def isValidObjectId (s : String) : Bool :=
  s.toList.length == 12 || (s.toList.length == 24 && s.toList.all isHexDigit)

/-- `User.findOneAndUpdate(filter, update, { new: true })`: update the
first document matching `p` by `m`; return the updated document and the
new store, or `none` and the unchanged store when nothing matches. -/
def findOneAndUpdate (p : User → Bool) (m : User → User) :
    Store → Option User × Store
  | [] => (none, [])
  | u :: rest =>
    if p u then (some (m u), m u :: rest)
    else
      let r := findOneAndUpdate p m rest
      (r.1, u :: r.2)

/-- `User.findById` / `findOne({_id: uid})`: the first document whose
`_id` is `uid`. -/
def findUser (store : Store) (uid : String) : Option User :=
  store.find? (fun u => u.id == uid)

/-- Filter of `followUser`'s first update:
`{ _id: userId, 'followings.followingId': { $ne: followId } }` —
the document with this id whose `followings` has no entry for
`followId`. -/
def followCond1 (userId followId : String) (u : User) : Bool :=
  u.id == userId && !(u.followings.any fun e => e.followingId == followId)

/-- Update of `followUser`'s first step:
`$push: { followings: { followingId: followId, date: new Date() } }`. -/
def followMut1 (followId : String) (t : Nat) (u : User) : User :=
  { u with followings := u.followings ++ [⟨followId, t⟩] }

/-- Filter of `followUser`'s second update:
`{ _id: followId, 'followers.followId': { $ne: userId } }`. -/
def followCond2 (userId followId : String) (u : User) : Bool :=
  u.id == followId && !(u.followers.any fun e => e.followId == userId)

/-- Update of `followUser`'s second step:
`$push: { followers: { followId: userId, date: new Date() } }`. -/
def followMut2 (userId : String) (t : Nat) (u : User) : User :=
  { u with followers := u.followers ++ [⟨userId, t⟩] }

/-- `followUser` (POST `/api/users/follow`).  `t1` and `t2` are the two
`new Date()` timestamps of the two pushes. -/
def followUser (store : Store) (userId followId : String) (t1 t2 : Nat) :
    Except UserError Unit × Store :=
  if !(isValidObjectId userId) || !(isValidObjectId followId) then
    (.error .ERROR_VALID_ID, store)
  else if userId == followId then
    (.error .ERROR_IDS_SAME, store)
  else
    let step1 := findOneAndUpdate (followCond1 userId followId) (followMut1 followId t1) store
    match step1.1 with
    | none => (.error .ERROR_UPDATE_FOLLOWING, step1.2)
    | some _ =>
      let step2 := findOneAndUpdate (followCond2 userId followId) (followMut2 userId t2) step1.2
      match step2.1 with
      | none => (.error .ERROR_UPDATE_FOLLOWERS, step2.2)
      | some _ => (.ok (), step2.2)

/-- Filter of `unfollowUser`'s first update:
`{ _id: userId, 'followings.followingId': unfollowId }` — the document
with this id whose `followings` has an entry for `unfollowId`. -/
def unfollowCond1 (userId unfollowId : String) (u : User) : Bool :=
  u.id == userId && (u.followings.any fun e => e.followingId == unfollowId)

/-- Update of `unfollowUser`'s first step:
`$pull: { followings: { followingId: unfollowId } }` — remove every
matching entry. -/
def unfollowMut1 (unfollowId : String) (u : User) : User :=
  { u with followings := u.followings.filter fun e => !(e.followingId == unfollowId) }

/-- Filter of `unfollowUser`'s second update:
`{ _id: unfollowId, 'followers.followId': userId }`. -/
def unfollowCond2 (userId unfollowId : String) (u : User) : Bool :=
  u.id == unfollowId && (u.followers.any fun e => e.followId == userId)

/-- Update of `unfollowUser`'s second step:
`$pull: { followers: { followId: userId } }`. -/
def unfollowMut2 (userId : String) (u : User) : User :=
  { u with followers := u.followers.filter fun e => !(e.followId == userId) }

/-- `unfollowUser` (POST `/api/users/unfollow`). -/
def unfollowUser (store : Store) (userId unfollowId : String) :
    Except UserError Unit × Store :=
  if !(isValidObjectId userId) || !(isValidObjectId unfollowId) then
    (.error .ERROR_VALID_ID, store)
  else if userId == unfollowId then
    (.error .ERROR_IDS_SAME, store)
  else
    let step1 := findOneAndUpdate (unfollowCond1 userId unfollowId) (unfollowMut1 unfollowId) store
    match step1.1 with
    | none => (.error .ERROR_UPDATE_UNFOLLOWING, step1.2)
    | some _ =>
      let step2 := findOneAndUpdate (unfollowCond2 userId unfollowId) (unfollowMut2 userId) step1.2
      match step2.1 with
      | none => (.error .ERROR_UPDATE_UNFOLLOWERS, step2.2)
      | some _ => (.ok (), step2.2)

/-- `createUser` (POST `/api/users/create`).  `newId` is the `_id` the
store assigns to the created document.  A document is created with the
given username and (by the schema's defaults) empty `followers` and
`followings` arrays. -/
def createUser (store : Store) (username : String) (newId : String) :
    Except UserError User × Store :=
  if username.length < 3 then
    (.error .ERROR_USER_NAME, store)
  else
    match store.find? (fun u => u.username == username) with
    | some _ => (.error .ERROR_EXIST_USER, store)
    | none =>
      let user : User := ⟨newId, username, [], []⟩
      (.ok user, store ++ [user])

/-- A lightweight peer view (`_id`, `username` projection). -/
structure UserView where
  id : String
  username : String
  deriving DecidableEq, Repr

/-- The follower-id set of a user:
`user.followers.map(f => f.followId.toString())`. -/
def followerIds (u : User) : List String :=
  u.followers.map fun e => e.followId

/-- `getCommonFollowers` (GET `/api/users/mutual-followers/:userId1/:userId2`). -/
def getCommonFollowers (store : Store) (userId1 userId2 : String) :
    Except UserError (List UserView) :=
  if !(isValidObjectId userId1) || !(isValidObjectId userId2) then
    .error .ERROR_VALID_ID
  else if userId1 == userId2 then
    .error .ERROR_IDS_SAME
  else
    match findUser store userId1, findUser store userId2 with
    | some user1, some user2 =>
      let commonFollowers := (followerIds user1).filter fun f => (followerIds user2).contains f
      .ok ((store.filter fun u => commonFollowers.contains u.id).map fun u => ⟨u.id, u.username⟩)
    | _, _ => .error .NOT_FOUND

/-- One row of the daily-followers histogram: `{ date, count }`. -/
structure DailyCount where
  date : String
  count : Nat
  deriving DecidableEq, Repr

/-- Left-pad a numeral to two digits. -/
def pad2 (n : Nat) : String :=
  if n < 10 then "0" ++ toString n else toString n

/-- Left-pad a numeral to four digits. -/
def pad4 (n : Nat) : String :=
  if n < 10 then "000" ++ toString n
  else if n < 100 then "00" ++ toString n
  else if n < 1000 then "0" ++ toString n
  else toString n

/-- Proleptic-Gregorian civil date (year, month, day) from a count of
days since the Unix epoch 1970-01-01 (the standard civil-from-days
algorithm, specialised to non-negative day counts). -/
def civilFromDays (z : Nat) : Nat × Nat × Nat :=
  let doe := (z + 719468) % 146097
  let era := (z + 719468) / 146097
  let yoe := (doe - doe / 1460 + doe / 36524 - doe / 146096) / 365
  let doy := doe - (365 * yoe + yoe / 4 - yoe / 100)
  let mp := (5 * doy + 2) / 153
  let d := doy - (153 * mp + 2) / 5 + 1
  let m := if mp < 10 then mp + 3 else mp - 9
  let y := yoe + era * 400 + (if m ≤ 2 then 1 else 0)
  (y, m, d)

/-- `$dateToString: { format: '%Y-%m-%d' }` in UTC on a timestamp in
milliseconds since the epoch. -/
def dateToString (t : Nat) : String :=
  let c := civilFromDays (t / 86400000)
  pad4 c.1 ++ "-" ++ pad2 c.2.1 ++ "-" ++ pad2 c.2.2

/-- The `$match` on `_id` followed by `$unwind: '$followers'` of the
daily-counts pipeline: every follower edge of the matched documents. -/
def unwoundFollowers (store : Store) (userId : String) : List FollowerEntry :=
  (store.filter fun u => u.id == userId).flatMap User.followers

/-- The `%Y-%m-%d` group key of each unwound follower edge. -/
def dailyDates (store : Store) (userId : String) : List String :=
  (unwoundFollowers store userId).map fun e => dateToString e.date

/-- Lexicographic comparison of character lists, embedding the byte
order the store's `$sort` uses on the `%Y-%m-%d` group keys. -/
def charListLt : List Char → List Char → Bool
  | [], [] => false
  | [], _ :: _ => true
  | _ :: _, [] => false
  | c :: cs, d :: ds =>
    if c < d then true
    else if d < c then false
    else charListLt cs ds

/-- Strict lexicographic order on strings. -/
def strLt (a b : String) : Bool :=
  charListLt a.toList b.toList

/-- Lexicographic less-or-equal on strings. -/
def strLe (a b : String) : Bool :=
  strLt a b || a == b

/-- Insert a row into a list kept ascending by date. -/
def insertRow (x : DailyCount) : List DailyCount → List DailyCount
  | [] => [x]
  | y :: ys => if strLe x.date y.date then x :: y :: ys else y :: insertRow x ys

/-- Insertion sort of the `$group` rows, ascending by date
(`$sort: {date: 1}`). -/
def sortRows : List DailyCount → List DailyCount
  | [] => []
  | x :: xs => insertRow x (sortRows xs)

/-- The `$sum: 1` accumulator of the `$group` stage: how many unwound
follower edges of the user fall on group key `d`. -/
def dateCount (store : Store) (userId : String) (d : String) : Nat :=
  ((dailyDates store userId).filter fun x => x == d).length

/-- The aggregation pipeline's output rows: one `{date, count}` row per
distinct group key, sorted ascending by the key (`$sort: {date: 1}`). -/
def dailyCounts (store : Store) (userId : String) : List DailyCount :=
  sortRows ((dailyDates store userId).dedup.map fun d => ⟨d, dateCount store userId d⟩)

/-- `getFollowersCountDaily` (GET `/api/users/:userId/followers/daily`):
match the user, unwind the followers, group by the `%Y-%m-%d` string of
each edge's `date` counting edges per group, and sort ascending by the
group key. -/
def getFollowersCountDaily (store : Store) (userId : String) :
    Except UserError (List DailyCount) :=
  if !(isValidObjectId userId) then
    .error .ERROR_VALID_ID
  else
    .ok (dailyCounts store userId)

/-- The store invariant MongoDB enforces: `_id` values are pairwise
distinct across documents. -/
abbrev IdsNodup (store : Store) : Prop :=
  (store.map User.id).Nodup

/-- A well-formed ObjectId used by concrete witnesses. -/
def idA : String := "aaaaaaaaaaaaaaaaaaaaaaaa"

/-- A second well-formed ObjectId used by concrete witnesses. -/
def idB : String := "bbbbbbbbbbbbbbbbbbbbbbbb"

/-- A third well-formed ObjectId, matching no document of `sampleStore`. -/
def idC : String := "cccccccccccccccccccccccc"

/-- A two-user store used by concrete witnesses. -/
def sampleStore : Store := [⟨idA, "alice", [], []⟩, ⟨idB, "bob", [], []⟩]

/-- `sampleStore` after `followUser sampleStore idA idB 1 2`. -/
def sampleStoreAfter : Store :=
  [⟨idA, "alice", [], [⟨idB, 1⟩]⟩, ⟨idB, "bob", [⟨idA, 2⟩], []⟩]

/-- Whether `u`'s followings (as stored) contain an entry for followee
`f` — the outgoing half of the edge `u → f`. -/
def hasEdgeOut (store : Store) (u f : String) : Bool :=
  match findUser store u with
  | none => false
  | some uu => uu.followings.any fun e => e.followingId == f

/-- Whether `f`'s followers (as stored) contain an entry for follower
`u` — the incoming half of the edge `u → f`. -/
def hasEdgeIn (store : Store) (f u : String) : Bool :=
  match findUser store f with
  | none => false
  | some uf => uf.followers.any fun e => e.followId == u

/-- Like `hasEdgeOut`, additionally requiring the entry's timestamp. -/
def edgeOutSince (store : Store) (u f : String) (t : Nat) : Bool :=
  match findUser store u with
  | none => false
  | some uu => uu.followings.any fun e => e.followingId == f && e.date == t

/-- Like `hasEdgeIn`, additionally requiring the entry's timestamp. -/
def edgeInSince (store : Store) (f u : String) (t : Nat) : Bool :=
  match findUser store f with
  | none => false
  | some uf => uf.followers.any fun e => e.followId == u && e.date == t

/-- The store of the C2 counterexample: the incoming half-edge
`idA ∈ idB.followers` is already present (as after an `unfollow` whose
second step failed), while `idA`'s followings do not contain `idB`. -/
def cexStore : Store := [⟨idA, "alice", [], []⟩, ⟨idB, "bob", [⟨idA, 5⟩], []⟩]

/-- `cexStore` after `followUser cexStore idA idB 1 2`: Step 1 pushed
the outgoing entry, Step 2 matched nothing. -/
def cexStoreAfter : Store := [⟨idA, "alice", [], [⟨idB, 1⟩]⟩, ⟨idB, "bob", [⟨idA, 5⟩], []⟩]

/-- The entries for followee `f` in `u`'s stored followings list. -/
def outEdges (store : Store) (u f : String) : List FollowingEntry :=
  match findUser store u with
  | none => []
  | some uu => uu.followings.filter fun e => e.followingId == f

/-- Written from the spec's words (§4.3 `mutualFollowers`), for
comparison with the code: the `{id, username}` views of the stored
users whose id lies in the set intersection (by identifier equality) of
the two users' follower-id sets. -/
def mutualFollowersSpec (store : Store) (u1 u2 : User) : List UserView :=
  (store.filter fun u => (followerIds u1).contains u.id && (followerIds u2).contains u.id).map
    fun u => ⟨u.id, u.username⟩

/-- A fourth well-formed ObjectId, used by concrete witness stores. -/
def idD : String := "dddddddddddddddddddddddd"

/-- The witness store for the mutual-followers queries: `idC` follows
both `idA` and `idB`; `idD` follows only `idA`. -/
def mfStore : Store :=
  [⟨idA, "alice", [⟨idC, 1⟩, ⟨idD, 2⟩], []⟩,
   ⟨idB, "bob", [⟨idC, 3⟩], []⟩,
   ⟨idC, "carol", [], []⟩,
   ⟨idD, "dina", [], []⟩]

/-- The witness store for the daily-counts query: `idB` has three
follower edges, two on 1970-01-01 (timestamps 0 ms and 1000 ms) and one
on 1970-01-02 (86400000 ms). -/
def dcStore : Store :=
  [⟨idA, "alice", [], []⟩,
   ⟨idB, "bob", [⟨idA, 0⟩, ⟨idC, 86400000⟩, ⟨idD, 1000⟩], []⟩]

theorem charListLt_trans : ∀ {x y z : List Char},
    charListLt x y = true → charListLt y z = true → charListLt x z = true
  | [], [], _, hxy, _ => by simp [charListLt] at hxy
  | [], _ :: _, [], _, hyz => by simp [charListLt] at hyz
  | [], _ :: _, _ :: _, _, _ => by simp [charListLt]
  | _ :: _, [], _, hxy, _ => by simp [charListLt] at hxy
  | _ :: _, _ :: _, [], _, hyz => by simp [charListLt] at hyz
  | c :: cs, d :: ds, e :: es, hxy, hyz => by
    simp only [charListLt] at hxy hyz ⊢
    by_cases hde : d < e
    · by_cases hcd : c < d
      · rw [if_pos (lt_trans hcd hde)]
      · by_cases hdc : d < c
        · rw [if_neg hcd, if_pos hdc] at hxy
          cases hxy
        · have : c = d := le_antisymm (not_lt.mp hdc) (not_lt.mp hcd)
          subst this
          rw [if_pos hde]
    · by_cases hed : e < d
      · rw [if_neg hde, if_pos hed] at hyz
        cases hyz
      · have : d = e := le_antisymm (not_lt.mp hed) (not_lt.mp hde)
        subst this
        rw [if_neg hde, if_neg hed] at hyz
        by_cases hcd : c < d
        · rw [if_pos hcd]
        · by_cases hdc : d < c
          · rw [if_neg hcd, if_pos hdc] at hxy
            cases hxy
          · rw [if_neg hcd, if_neg hdc] at hxy ⊢
            exact charListLt_trans hxy hyz

theorem findUser_some_mem {store : Store} {tid : String} {u : User}
    (h : findUser store tid = some u) : u ∈ store ∧ u.id = tid := by
  refine ⟨List.mem_of_find?_eq_some h, ?_⟩
  have := List.find?_some h
  simpa using this

theorem findUser_eq_some_of_mem {store : Store} {tid : String} {w : User}
    (hnd : IdsNodup store) (hw : w ∈ store) (hid : w.id = tid) :
    findUser store tid = some w := by
  induction store with
  | nil => cases hw
  | cons v rest ih =>
    rcases List.mem_cons.mp hw with h | h
    · subst h
      simp [findUser, List.find?, hid]
    · have hvid : v.id ≠ tid := by
        intro hv
        have hnotin : v.id ∉ rest.map User.id := (List.nodup_cons.mp hnd).1
        exact hnotin (hv ▸ hid ▸ List.mem_map_of_mem User.id h)
      have ih' := ih (List.nodup_cons.mp hnd).2 h
      simp only [findUser, List.find?] at ih' ⊢
      simp [beq_eq_false_iff_ne.mpr hvid, ih']

theorem findOneAndUpdate_nomatch (p : User → Bool) (m : User → User) :
    ∀ store : Store, (∀ u ∈ store, p u = false) →
      findOneAndUpdate p m store = (none, store)
  | [], _ => rfl
  | u :: rest, h => by
    have hu : p u = false := h u (by simp)
    have ih := findOneAndUpdate_nomatch p m rest (fun v hv => h v (by simp [hv]))
    simp [findOneAndUpdate, hu, ih]

theorem findOneAndUpdate_some_inv (p : User → Bool) (m : User → User) :
    ∀ (store : Store) (v : User),
      (findOneAndUpdate p m store).1 = some v →
      ∃ w ∈ store, p w = true ∧ v = m w
  | [], v, h => by simp [findOneAndUpdate] at h
  | u :: rest, v, h => by
    by_cases hu : p u = true
    · refine ⟨u, by simp, hu, ?_⟩
      simp [findOneAndUpdate, hu] at h
      exact h.symm
    · have hu' : p u = false := by simpa using hu
      simp only [findOneAndUpdate, hu', Bool.false_eq_true, if_false] at h
      obtain ⟨w, hw, hpw, hv⟩ := findOneAndUpdate_some_inv p m rest v h
      exact ⟨w, by simp [hw], hpw, hv⟩

theorem findOneAndUpdate_none_of_absent (p : User → Bool) (m : User → User)
    {store : Store} {tid : String}
    (hponly : ∀ w, p w = true → w.id = tid)
    (hfind : findUser store tid = none) :
    findOneAndUpdate p m store = (none, store) := by
  refine findOneAndUpdate_nomatch p m store (fun w hw => ?_)
  by_contra hpw
  have hpw' : p w = true := by simpa using hpw
  have hid := hponly w hpw'
  have := (List.find?_eq_none.mp hfind) w hw
  simp [hid] at this

theorem findOneAndUpdate_condFalse (p : User → Bool) (m : User → User)
    {store : Store} {tid : String} {u : User}
    (hnd : IdsNodup store)
    (hponly : ∀ w, p w = true → w.id = tid)
    (hfind : findUser store tid = some u)
    (hpu : p u = false) :
    findOneAndUpdate p m store = (none, store) := by
  obtain ⟨hmem, hid⟩ := findUser_some_mem hfind
  refine findOneAndUpdate_nomatch p m store (fun w hw => ?_)
  by_contra hpw
  have hpw' : p w = true := by simpa using hpw
  have hwid := hponly w hpw'
  have : w = u := List.inj_on_of_nodup_map hnd hw hmem (hwid.trans hid.symm)
  rw [this] at hpw'
  simp [hpw'] at hpu

theorem findOneAndUpdate_match (p : User → Bool) (m : User → User)
    {tid : String}
    (hponly : ∀ w, p w = true → w.id = tid)
    (hmid : ∀ w, (m w).id = w.id) :
    ∀ {store : Store} {u : User},
      findUser store tid = some u → p u = true →
      ∃ s', findOneAndUpdate p m store = (some (m u), s') ∧
        findUser s' tid = some (m u) ∧
        (∀ x, x ≠ tid → findUser s' x = findUser store x) ∧
        s'.map User.id = store.map User.id
  | [], u, hfind, _ => by simp [findUser] at hfind
  | w :: rest, u, hfind, hpu => by
    by_cases hw : w.id = tid
    · have hwu : w = u := by
        simp only [findUser, List.find?, beq_iff_eq.mpr hw] at hfind
        exact Option.some.inj hfind
      subst hwu
      refine ⟨m w :: rest, ?_, ?_, ?_, ?_⟩
      · simp [findOneAndUpdate, hpu]
      · simp [findUser, List.find?, beq_iff_eq.mpr ((hmid w).trans hw)]
      · intro x hx
        have hmw : (m w).id = tid := (hmid w).trans hw
        have h1 : ((m w).id == x) = false :=
          beq_eq_false_iff_ne.mpr (fun h => hx (h.symm.trans hmw))
        have h2 : (w.id == x) = false :=
          beq_eq_false_iff_ne.mpr (fun h => hx (h.symm.trans hw))
        simp [findUser, List.find?, h1, h2]
      · simp [hmid w]
    · have hwp : p w = false := by
        by_contra hc
        exact hw (hponly w (by simpa using hc))
      have hfind' : findUser rest tid = some u := by
        simp only [findUser, List.find?, beq_eq_false_iff_ne.mpr hw] at hfind ⊢
        exact hfind
      obtain ⟨s'', h1, h2, h3, h4⟩ := findOneAndUpdate_match p m hponly hmid hfind' hpu
      refine ⟨w :: s'', ?_, ?_, ?_, ?_⟩
      · simp [findOneAndUpdate, hwp, h1]
      · simp only [findUser, List.find?, beq_eq_false_iff_ne.mpr hw]
        exact h2
      · intro x hx
        by_cases hwx : w.id = x
        · simp [findUser, List.find?, beq_iff_eq.mpr hwx]
        · simp only [findUser, List.find?, beq_eq_false_iff_ne.mpr hwx]
          exact h3 x hx
      · simpa using h4

theorem followCond1_id {userId followId : String} (w : User)
    (hw : followCond1 userId followId w = true) : w.id = userId := by
  simp only [followCond1, Bool.and_eq_true, beq_iff_eq] at hw
  exact hw.1

theorem followCond1_noentry {userId followId : String} {w : User}
    (hw : followCond1 userId followId w = true) :
    ∀ e ∈ w.followings, e.followingId ≠ followId := by
  intro e he heq
  simp only [followCond1, Bool.and_eq_true] at hw
  have h2 := (Bool.not_eq_true' _).mp hw.2
  have := (List.any_eq_false.mp h2) e he
  simp [heq] at this

theorem followCond2_id {userId followId : String} (w : User)
    (hw : followCond2 userId followId w = true) : w.id = followId := by
  simp only [followCond2, Bool.and_eq_true, beq_iff_eq] at hw
  exact hw.1

theorem followCond2_noentry {userId followId : String} {w : User}
    (hw : followCond2 userId followId w = true) :
    ∀ e ∈ w.followers, e.followId ≠ userId := by
  intro e he heq
  simp only [followCond2, Bool.and_eq_true] at hw
  have h2 := (Bool.not_eq_true' _).mp hw.2
  have := (List.any_eq_false.mp h2) e he
  simp [heq] at this

theorem unfollowCond1_id {userId unfollowId : String} (w : User)
    (hw : unfollowCond1 userId unfollowId w = true) : w.id = userId := by
  simp only [unfollowCond1, Bool.and_eq_true, beq_iff_eq] at hw
  exact hw.1

theorem unfollowCond2_id {userId unfollowId : String} (w : User)
    (hw : unfollowCond2 userId unfollowId w = true) : w.id = unfollowId := by
  simp only [unfollowCond2, Bool.and_eq_true, beq_iff_eq] at hw
  exact hw.1

theorem followMut1_id (followId : String) (t : Nat) (w : User) :
    (followMut1 followId t w).id = w.id := rfl

theorem followMut2_id (userId : String) (t : Nat) (w : User) :
    (followMut2 userId t w).id = w.id := rfl

theorem unfollowMut1_id (unfollowId : String) (w : User) :
    (unfollowMut1 unfollowId w).id = w.id := rfl

theorem unfollowMut2_id (userId : String) (w : User) :
    (unfollowMut2 userId w).id = w.id := rfl

/-- Characterisation of a successful `followUser` call: both guards
passed, both conditional updates matched, the edge was absent on both
sides beforehand, and afterwards the two affected documents carry the
pushed entries while every other document is untouched. -/
theorem followUser_ok {store : Store} {userId followId : String} {t1 t2 : Nat} {s' : Store}
    (hnd : IdsNodup store)
    (h : followUser store userId followId t1 t2 = (.ok (), s')) :
    isValidObjectId userId = true ∧ isValidObjectId followId = true ∧
    userId ≠ followId ∧
    ∃ uu uf,
      findUser store userId = some uu ∧ findUser store followId = some uf ∧
      (∀ e ∈ uu.followings, e.followingId ≠ followId) ∧
      (∀ e ∈ uf.followers, e.followId ≠ userId) ∧
      findUser s' userId = some (followMut1 followId t1 uu) ∧
      findUser s' followId = some (followMut2 userId t2 uf) ∧
      (∀ x, x ≠ userId → x ≠ followId → findUser s' x = findUser store x) ∧
      s'.map User.id = store.map User.id := by
  unfold followUser at h
  by_cases hg1 : (!(isValidObjectId userId) || !(isValidObjectId followId)) = true
  · rw [if_pos hg1] at h
    simp at h
  rw [if_neg hg1] at h
  have hval : isValidObjectId userId = true ∧ isValidObjectId followId = true := by
    simpa using hg1
  by_cases hg2 : (userId == followId) = true
  · rw [if_pos hg2] at h
    simp at h
  rw [if_neg hg2] at h
  have hne : userId ≠ followId := fun hEq => hg2 (by simp [hEq])
  simp only [] at h
  cases ho1 : (findOneAndUpdate (followCond1 userId followId) (followMut1 followId t1) store).1 with
  | none =>
    simp only [ho1] at h
    simp at h
  | some v1 =>
    obtain ⟨w1, hw1mem, hcond1, _⟩ :=
      findOneAndUpdate_some_inv (followCond1 userId followId) (followMut1 followId t1) store v1 ho1
    have hfind1 : findUser store userId = some w1 :=
      findUser_eq_some_of_mem hnd hw1mem (followCond1_id w1 hcond1)
    obtain ⟨s1, hstep1, hfindu1, hpres1, hids1⟩ :=
      findOneAndUpdate_match (followCond1 userId followId) (followMut1 followId t1)
        (fun w hw => followCond1_id w hw) (fun w => followMut1_id followId t1 w) hfind1 hcond1
    simp only [ho1, hstep1] at h
    have hnd1 : IdsNodup s1 := by
      unfold IdsNodup
      rw [hids1]
      exact hnd
    cases ho2 : (findOneAndUpdate (followCond2 userId followId) (followMut2 userId t2) s1).1 with
    | none =>
      simp only [ho2] at h
      simp at h
    | some v2 =>
      obtain ⟨w2, hw2mem, hcond2, _⟩ :=
        findOneAndUpdate_some_inv (followCond2 userId followId) (followMut2 userId t2) s1 v2 ho2
      have hfind2 : findUser s1 followId = some w2 :=
        findUser_eq_some_of_mem hnd1 hw2mem (followCond2_id w2 hcond2)
      have hfinds : findUser store followId = some w2 := by
        rw [← hpres1 followId (Ne.symm hne)]
        exact hfind2
      obtain ⟨s2, hstep2, hfindf2, hpres2, hids2⟩ :=
        findOneAndUpdate_match (followCond2 userId followId) (followMut2 userId t2)
          (fun w hw => followCond2_id w hw) (fun w => followMut2_id userId t2 w) hfind2 hcond2
      simp only [ho2, hstep2] at h
      have hs : s2 = s' := by simpa using h
      subst hs
      refine ⟨hval.1, hval.2, hne, w1, w2, hfind1, hfinds,
        followCond1_noentry hcond1, followCond2_noentry hcond2, ?_, hfindf2, ?_, ?_⟩
      · rw [hpres2 userId hne]
        exact hfindu1
      · intro x hxu hxf
        rw [hpres2 x hxf, hpres1 x hxu]
      · rw [hids2, hids1]

/-- C1: for every successful `follow(userId, followId)`, afterward the
edge appears on both sides: an entry with followee id `followId`,
carrying the operation's (non-null) timestamp, is in `userId`'s
followings, and an entry with follower id `userId`, carrying the
operation's (non-null) timestamp, is in `followId`'s followers. -/
theorem C1_follow_mirror {store : Store} {userId followId : String} {t1 t2 : Nat} {s' : Store}
    (hnd : IdsNodup store)
    (h : followUser store userId followId t1 t2 = (.ok (), s')) :
    edgeOutSince s' userId followId t1 = true ∧
    edgeInSince s' followId userId t2 = true := by
  obtain ⟨_, _, _, uu, uf, _, _, _, _, hu, hf, _, _⟩ := followUser_ok hnd h
  constructor
  · rw [edgeOutSince, hu]
    simp [followMut1]
  · rw [edgeInSince, hf]
    simp [followMut2]

theorem C1_follow_mirror_witness :
    edgeOutSince sampleStoreAfter idA idB 1 = true ∧
    edgeInSince sampleStoreAfter idB idA 2 = true :=
  @C1_follow_mirror sampleStore idA idB 1 2 sampleStoreAfter (by decide) rfl

/-- C5 counterexample: at the concrete malformed identifier
`"invalidId"`, `follow(u, u)` fails with the invalid-identifier error,
not with `IdentityConflict` — the identifier-format check runs first,
so the claim as stated (for every identifier) is false. -/
theorem C5_self_follow_counterexample :
    (followUser [] "invalidId" "invalidId" 0 0).1 = .error .ERROR_VALID_ID ∧
    UserError.ERROR_VALID_ID ≠ UserError.ERROR_IDS_SAME :=
  ⟨rfl, by decide⟩

/-- C5 (amended): for every well-formed identifier `u` and every store
state, `follow(u, u)` fails with `IdentityConflict` and performs no
mutation. -/
theorem C5_self_follow_rejected (store : Store) (u : String) (t1 t2 : Nat)
    (h : isValidObjectId u = true) :
    followUser store u u t1 t2 = (.error .ERROR_IDS_SAME, store) := by
  simp [followUser, h]

theorem C5_self_follow_rejected_witness :
    followUser sampleStore idA idA 0 0 = (.error .ERROR_IDS_SAME, sampleStore) :=
  C5_self_follow_rejected sampleStore idA 0 0 (by decide)

/-- C9: `createUser(username)` fails with `InvalidUsername` when the
username is shorter than 3, fails with `DuplicateUsername` when a user
with that username exists, and otherwise persists and returns a new
user whose followers and followings lists are both empty. -/
theorem C9_createUser (store : Store) (username newId : String) :
    (username.length < 3 →
      createUser store username newId = (.error .ERROR_USER_NAME, store)) ∧
    (3 ≤ username.length → (∃ w ∈ store, w.username = username) →
      createUser store username newId = (.error .ERROR_EXIST_USER, store)) ∧
    (3 ≤ username.length → (∀ w ∈ store, w.username ≠ username) →
      createUser store username newId =
        (.ok ⟨newId, username, [], []⟩, store ++ [⟨newId, username, [], []⟩])) := by
  refine ⟨fun hlen => ?_, fun hlen hex => ?_, fun hlen hnew => ?_⟩
  · simp [createUser, hlen]
  · obtain ⟨w, hw, hwname⟩ := hex
    have hfind : (store.find? fun u => u.username == username).isSome := by
      rw [List.find?_isSome]
      exact ⟨w, hw, by simp [hwname]⟩
    rcases hf : store.find? fun u => u.username == username with _ | v
    · rw [hf] at hfind
      simp at hfind
    · simp [createUser, Nat.not_lt.mpr hlen, hf]
  · have hf : (store.find? fun u => u.username == username) = none :=
      List.find?_eq_none.mpr (fun w hw => by simp [hnew w hw])
    simp [createUser, Nat.not_lt.mpr hlen, hf]

theorem C9_createUser_witness :
    createUser sampleStore "ab" idC = (.error .ERROR_USER_NAME, sampleStore) ∧
    createUser sampleStore "alice" idC = (.error .ERROR_EXIST_USER, sampleStore) ∧
    createUser sampleStore "carol" idC =
      (.ok ⟨idC, "carol", [], []⟩, sampleStore ++ [⟨idC, "carol", [], []⟩]) :=
  ⟨(C9_createUser sampleStore "ab" idC).1 (by decide),
   (C9_createUser sampleStore "alice" idC).2.1 (by decide)
     ⟨⟨idA, "alice", [], []⟩, by decide, rfl⟩,
   (C9_createUser sampleStore "carol" idC).2.2 (by decide) (by decide)⟩

/-- C10: for a well-formed id matching no user, the daily-counts query
succeeds with an empty sequence, while the mutual-followers query fails
with `NotFound` for that same missing user. -/
theorem C10_missing_user (store : Store) (userId : String)
    (hv : isValidObjectId userId = true)
    (hmiss : findUser store userId = none) :
    getFollowersCountDaily store userId = .ok [] ∧
    (∀ uid2, isValidObjectId uid2 = true → userId ≠ uid2 →
      getCommonFollowers store userId uid2 = .error .NOT_FOUND) := by
  constructor
  · have hfilter : (store.filter fun u => u.id == userId) = [] := by
      rw [List.filter_eq_nil_iff]
      intro u hu
      have := (List.find?_eq_none.mp hmiss) u hu
      simpa using this
    simp [getFollowersCountDaily, dailyCounts, dateCount, hv, dailyDates, unwoundFollowers,
      hfilter, sortRows]
  · intro uid2 hv2 hne
    have hbeq : (userId == uid2) = false := beq_eq_false_iff_ne.mpr hne
    rcases h2 : findUser store uid2 with _ | v <;>
      simp [getCommonFollowers, hv, hv2, hbeq, hmiss, h2]

theorem C10_missing_user_witness :
    getFollowersCountDaily sampleStore idC = .ok [] ∧
    getCommonFollowers sampleStore idC idA = .error .NOT_FOUND :=
  ⟨(C10_missing_user sampleStore idC (by decide) (by decide)).1,
   (C10_missing_user sampleStore idC (by decide) (by decide)).2 idA (by decide) (by decide)⟩

theorem findOneAndUpdate_none_snd (p : User → Bool) (m : User → User) :
    ∀ l : Store, (findOneAndUpdate p m l).1 = none → (findOneAndUpdate p m l).2 = l
  | [], _ => rfl
  | u :: rest, h => by
    by_cases hu : p u = true
    · simp [findOneAndUpdate, hu] at h
    · have hu' : p u = false := by simpa using hu
      simp only [findOneAndUpdate, hu', Bool.false_eq_true, if_false] at h ⊢
      rw [findOneAndUpdate_none_snd p m rest h]

/-- A `followUser` call that fails with `ERROR_UPDATE_FOLLOWING` leaves
the store completely unchanged: Step 2 is never attempted. -/
theorem followUser_err_following {store : Store} {userId followId : String}
    {t1 t2 : Nat} {s' : Store}
    (h : followUser store userId followId t1 t2 = (.error .ERROR_UPDATE_FOLLOWING, s')) :
    s' = store := by
  unfold followUser at h
  by_cases hg1 : (!(isValidObjectId userId) || !(isValidObjectId followId)) = true
  · rw [if_pos hg1] at h
    simp at h
  rw [if_neg hg1] at h
  by_cases hg2 : (userId == followId) = true
  · rw [if_pos hg2] at h
    simp at h
  rw [if_neg hg2] at h
  simp only [] at h
  cases ho1 : (findOneAndUpdate (followCond1 userId followId) (followMut1 followId t1) store).1 with
  | none =>
    simp only [ho1] at h
    rw [findOneAndUpdate_none_snd _ _ store ho1] at h
    simpa using h.symm
  | some v1 =>
    simp only [ho1] at h
    cases ho2 : (findOneAndUpdate (followCond2 userId followId) (followMut2 userId t2)
        (findOneAndUpdate (followCond1 userId followId) (followMut1 followId t1) store).2).1 with
    | none =>
      simp only [ho2] at h
      simp at h
    | some v2 =>
      simp only [ho2] at h
      simp at h

/-- A `followUser` call that fails with `ERROR_UPDATE_FOLLOWERS` has
completed Step 1 and nothing else: `userId`'s document carries the
pushed entry and every other document is exactly as before. -/
theorem followUser_err_followers {store : Store} {userId followId : String}
    {t1 t2 : Nat} {s' : Store}
    (hnd : IdsNodup store)
    (h : followUser store userId followId t1 t2 = (.error .ERROR_UPDATE_FOLLOWERS, s')) :
    ∃ uu, findUser store userId = some uu ∧
      (∀ e ∈ uu.followings, e.followingId ≠ followId) ∧
      findUser s' userId = some (followMut1 followId t1 uu) ∧
      (∀ x, x ≠ userId → findUser s' x = findUser store x) ∧
      s'.map User.id = store.map User.id := by
  unfold followUser at h
  by_cases hg1 : (!(isValidObjectId userId) || !(isValidObjectId followId)) = true
  · rw [if_pos hg1] at h
    simp at h
  rw [if_neg hg1] at h
  by_cases hg2 : (userId == followId) = true
  · rw [if_pos hg2] at h
    simp at h
  rw [if_neg hg2] at h
  simp only [] at h
  cases ho1 : (findOneAndUpdate (followCond1 userId followId) (followMut1 followId t1) store).1 with
  | none =>
    simp only [ho1] at h
    simp at h
  | some v1 =>
    obtain ⟨w1, hw1mem, hcond1, _⟩ :=
      findOneAndUpdate_some_inv (followCond1 userId followId) (followMut1 followId t1) store v1 ho1
    have hfind1 : findUser store userId = some w1 :=
      findUser_eq_some_of_mem hnd hw1mem (followCond1_id w1 hcond1)
    obtain ⟨s1, hstep1, hfindu1, hpres1, hids1⟩ :=
      findOneAndUpdate_match (followCond1 userId followId) (followMut1 followId t1)
        (fun w hw => followCond1_id w hw) (fun w => followMut1_id followId t1 w) hfind1 hcond1
    simp only [ho1, hstep1] at h
    cases ho2 : (findOneAndUpdate (followCond2 userId followId) (followMut2 userId t2) s1).1 with
    | none =>
      simp only [ho2] at h
      rw [findOneAndUpdate_none_snd _ _ s1 ho2] at h
      have hs : s1 = s' := by simpa using h
      subst hs
      exact ⟨w1, hfind1, followCond1_noentry hcond1, hfindu1, hpres1, hids1⟩
    | some v2 =>
      simp only [ho2] at h
      simp at h

/-- C2 (amended): Step 1 runs before Step 2 and Step 2 is attempted
only if Step 1 succeeded — a `FollowingUpdateFailed` outcome leaves the
store untouched.  If Step 2 fails after Step 1 succeeded, the operation
reports `FollowersUpdateFailed` and Step 1's write is not rolled back:
the entry (with Step 1's timestamp) is present in `userId`'s
followings, while every record other than `userId`'s — in particular
`followId`'s followers side — is exactly as it was before the call (so
the incoming side is absent whenever it was absent before the call, but
remains present when the edge was already there). -/
theorem C2_step_ordering {store : Store} {userId followId : String} {t1 t2 : Nat}
    (hnd : IdsNodup store) :
    (∀ s', followUser store userId followId t1 t2 = (.error .ERROR_UPDATE_FOLLOWING, s') →
      s' = store) ∧
    (∀ s', followUser store userId followId t1 t2 = (.error .ERROR_UPDATE_FOLLOWERS, s') →
      edgeOutSince s' userId followId t1 = true ∧
      (∀ x, x ≠ userId → findUser s' x = findUser store x)) := by
  constructor
  · intro s' h
    exact followUser_err_following h
  · intro s' h
    obtain ⟨uu, _, _, hs'u, hpres, _⟩ := followUser_err_followers hnd h
    constructor
    · rw [edgeOutSince, hs'u]
      simp [followMut1]
    · exact hpres

/-- C2 counterexample: on `cexStore`, `follow(idA, idB)` fails with
`FollowersUpdateFailed` after Step 1 succeeded, yet the entry with
follower id `idA` is PRESENT in `idB`'s followers afterwards — not
absent as the claim states. -/
theorem C2_step_ordering_counterexample :
    followUser cexStore idA idB 1 2 = (.error .ERROR_UPDATE_FOLLOWERS, cexStoreAfter) ∧
    hasEdgeIn cexStoreAfter idB idA = true :=
  ⟨rfl, rfl⟩

theorem C2_step_ordering_witness :
    (followUser sampleStore idC idA 1 2).2 = sampleStore ∧
    edgeOutSince cexStoreAfter idA idB 1 = true ∧
    findUser cexStoreAfter idB = findUser cexStore idB :=
  ⟨(@C2_step_ordering sampleStore idC idA 1 2 (by decide)).1 sampleStore rfl,
   ((@C2_step_ordering cexStore idA idB 1 2 (by decide)).2 cexStoreAfter rfl).1,
   ((@C2_step_ordering cexStore idA idB 1 2 (by decide)).2 cexStoreAfter rfl).2 idB (by decide)⟩

/-- C4: after a successful `follow(u, f)`, calling `follow(u, f)` again
fails with `FollowingUpdateFailed` (its Step 1 conditional update
matches no record because the edge is already present), mutates
nothing, and `u`'s followings contain exactly one entry for `f`, still
carrying the first call's timestamp. -/
theorem C4_follow_idempotent {store : Store} {u f : String} {t1 t2 t3 t4 : Nat} {s1 : Store}
    (hnd : IdsNodup store)
    (h : followUser store u f t1 t2 = (.ok (), s1)) :
    followUser s1 u f t3 t4 = (.error .ERROR_UPDATE_FOLLOWING, s1) ∧
    outEdges s1 u f = [⟨f, t1⟩] := by
  obtain ⟨hv1, hv2, hne, uu, uf, hfu, hff, hnoentry, _, hs1u, _, _, hids⟩ := followUser_ok hnd h
  have hnd1 : IdsNodup s1 := by
    unfold IdsNodup
    rw [hids]
    exact hnd
  have hcondF : followCond1 u f (followMut1 f t1 uu) = false := by
    simp [followCond1, followMut1]
  have hfoau := findOneAndUpdate_condFalse (followCond1 u f) (followMut1 f t3) hnd1
    (fun w hw => followCond1_id w hw) hs1u hcondF
  constructor
  · unfold followUser
    rw [if_neg (by simp [hv1, hv2]), if_neg (by simp [hne])]
    simp only [hfoau]
  · rw [outEdges, hs1u]
    have hnil : uu.followings.filter (fun e => e.followingId == f) = [] :=
      List.filter_eq_nil_iff.mpr (fun e he => by simp [hnoentry e he])
    simp [followMut1, List.filter_append, hnil]

theorem C4_follow_idempotent_witness :
    followUser sampleStoreAfter idA idB 3 4 = (.error .ERROR_UPDATE_FOLLOWING, sampleStoreAfter) ∧
    outEdges sampleStoreAfter idA idB = [⟨idB, 1⟩] :=
  @C4_follow_idempotent sampleStore idA idB 1 2 3 4 sampleStoreAfter (by decide) rfl

/-- Characterisation of a successful `unfollowUser` call: both guards
passed, both conditional updates matched, and afterwards the two
affected documents have all matching entries pulled while every other
document is untouched. -/
theorem unfollowUser_ok {store : Store} {userId unfollowId : String} {s' : Store}
    (hnd : IdsNodup store)
    (h : unfollowUser store userId unfollowId = (.ok (), s')) :
    isValidObjectId userId = true ∧ isValidObjectId unfollowId = true ∧
    userId ≠ unfollowId ∧
    ∃ uu uf,
      findUser store userId = some uu ∧ findUser store unfollowId = some uf ∧
      findUser s' userId = some (unfollowMut1 unfollowId uu) ∧
      findUser s' unfollowId = some (unfollowMut2 userId uf) ∧
      (∀ x, x ≠ userId → x ≠ unfollowId → findUser s' x = findUser store x) ∧
      s'.map User.id = store.map User.id := by
  unfold unfollowUser at h
  by_cases hg1 : (!(isValidObjectId userId) || !(isValidObjectId unfollowId)) = true
  · rw [if_pos hg1] at h
    simp at h
  rw [if_neg hg1] at h
  have hval : isValidObjectId userId = true ∧ isValidObjectId unfollowId = true := by
    simpa using hg1
  by_cases hg2 : (userId == unfollowId) = true
  · rw [if_pos hg2] at h
    simp at h
  rw [if_neg hg2] at h
  have hne : userId ≠ unfollowId := fun hEq => hg2 (by simp [hEq])
  simp only [] at h
  cases ho1 : (findOneAndUpdate (unfollowCond1 userId unfollowId) (unfollowMut1 unfollowId) store).1 with
  | none =>
    simp only [ho1] at h
    simp at h
  | some v1 =>
    obtain ⟨w1, hw1mem, hcond1, _⟩ :=
      findOneAndUpdate_some_inv (unfollowCond1 userId unfollowId) (unfollowMut1 unfollowId) store v1 ho1
    have hfind1 : findUser store userId = some w1 :=
      findUser_eq_some_of_mem hnd hw1mem (unfollowCond1_id w1 hcond1)
    obtain ⟨s1, hstep1, hfindu1, hpres1, hids1⟩ :=
      findOneAndUpdate_match (unfollowCond1 userId unfollowId) (unfollowMut1 unfollowId)
        (fun w hw => unfollowCond1_id w hw) (fun w => unfollowMut1_id unfollowId w) hfind1 hcond1
    simp only [ho1, hstep1] at h
    have hnd1 : IdsNodup s1 := by
      unfold IdsNodup
      rw [hids1]
      exact hnd
    cases ho2 : (findOneAndUpdate (unfollowCond2 userId unfollowId) (unfollowMut2 userId) s1).1 with
    | none =>
      simp only [ho2] at h
      simp at h
    | some v2 =>
      obtain ⟨w2, hw2mem, hcond2, _⟩ :=
        findOneAndUpdate_some_inv (unfollowCond2 userId unfollowId) (unfollowMut2 userId) s1 v2 ho2
      have hfind2 : findUser s1 unfollowId = some w2 :=
        findUser_eq_some_of_mem hnd1 hw2mem (unfollowCond2_id w2 hcond2)
      have hfinds : findUser store unfollowId = some w2 := by
        rw [← hpres1 unfollowId (Ne.symm hne)]
        exact hfind2
      obtain ⟨s2, hstep2, hfindf2, hpres2, hids2⟩ :=
        findOneAndUpdate_match (unfollowCond2 userId unfollowId) (unfollowMut2 userId)
          (fun w hw => unfollowCond2_id w hw) (fun w => unfollowMut2_id userId w) hfind2 hcond2
      simp only [ho2, hstep2] at h
      have hs : s2 = s' := by simpa using h
      subst hs
      refine ⟨hval.1, hval.2, hne, w1, w2, hfind1, hfinds, ?_, hfindf2, ?_, ?_⟩
      · rw [hpres2 userId hne]
        exact hfindu1
      · intro x hxu hxf
        rw [hpres2 x hxf, hpres1 x hxu]
      · rw [hids2, hids1]

/-- C3: from a state in which the edge `u → f` is absent on both sides,
a successful `follow(u, f)` followed by a successful `unfollow(u, f)`
returns the graph to the pre-follow state: the edge is absent from
`u`'s followings and from `f`'s followers — indeed every user document
reads back exactly as before the pair of calls. -/
theorem C3_round_trip {store : Store} {u f : String} {t1 t2 : Nat} {s1 s2 : Store}
    (hnd : IdsNodup store)
    (habs1 : hasEdgeOut store u f = false)
    (habs2 : hasEdgeIn store f u = false)
    (hfollow : followUser store u f t1 t2 = (.ok (), s1))
    (hunfollow : unfollowUser s1 u f = (.ok (), s2)) :
    hasEdgeOut s2 u f = false ∧ hasEdgeIn s2 f u = false ∧
    ∀ x, findUser s2 x = findUser store x := by
  obtain ⟨hv1, hv2, hne, uu, uf, hfu, hff, hnout, hnin, hs1u, hs1f, hpres1, hids1⟩ :=
    followUser_ok hnd hfollow
  have hnd1 : IdsNodup s1 := by
    unfold IdsNodup
    rw [hids1]
    exact hnd
  obtain ⟨_, _, _, uu1, uf1, hs1u', hs1f', hs2u, hs2f, hpres2, hids2⟩ :=
    unfollowUser_ok hnd1 hunfollow
  have huu1 : uu1 = followMut1 f t1 uu := Option.some.inj (hs1u'.symm.trans hs1u)
  have huf1 : uf1 = followMut2 u t2 uf := Option.some.inj (hs1f'.symm.trans hs1f)
  have hfil1 : (uu.followings ++ [(⟨f, t1⟩ : FollowingEntry)]).filter (fun e => !(e.followingId == f))
      = uu.followings := by
    rw [List.filter_append]
    have ha : uu.followings.filter (fun e => !(e.followingId == f)) = uu.followings :=
      List.filter_eq_self.mpr (fun e he => by simp [hnout e he])
    have hb : ([⟨f, t1⟩] : List FollowingEntry).filter (fun e => !(e.followingId == f)) = [] := by
      simp
    rw [ha, hb, List.append_nil]
  have hfil2 : (uf.followers ++ [(⟨u, t2⟩ : FollowerEntry)]).filter (fun e => !(e.followId == u))
      = uf.followers := by
    rw [List.filter_append]
    have ha : uf.followers.filter (fun e => !(e.followId == u)) = uf.followers :=
      List.filter_eq_self.mpr (fun e he => by simp [hnin e he])
    have hb : ([⟨u, t2⟩] : List FollowerEntry).filter (fun e => !(e.followId == u)) = [] := by
      simp
    rw [ha, hb, List.append_nil]
  have hmut1 : unfollowMut1 f uu1 = uu := by
    rw [huu1]
    unfold unfollowMut1 followMut1
    simp only
    rw [hfil1]
  have hmut2 : unfollowMut2 u uf1 = uf := by
    rw [huf1]
    unfold unfollowMut2 followMut2
    simp only
    rw [hfil2]
  have hs2u' : findUser s2 u = some uu := by
    rw [hs2u, hmut1]
  have hs2f' : findUser s2 f = some uf := by
    rw [hs2f, hmut2]
  refine ⟨?_, ?_, ?_⟩
  · rw [hasEdgeOut, hs2u']
    simp only
    exact List.any_eq_false.mpr (fun e he => by simp [hnout e he])
  · rw [hasEdgeIn, hs2f']
    simp only
    exact List.any_eq_false.mpr (fun e he => by simp [hnin e he])
  · intro x
    by_cases hx1 : x = u
    · subst hx1
      rw [hs2u', hfu]
    by_cases hx2 : x = f
    · subst hx2
      rw [hs2f', hff]
    rw [hpres2 x hx1 hx2, hpres1 x hx1 hx2]

theorem C3_round_trip_witness :
    hasEdgeOut sampleStore idA idB = false ∧ hasEdgeIn sampleStore idB idA = false ∧
    findUser sampleStore idA = findUser sampleStore idA :=
  ⟨(@C3_round_trip sampleStore idA idB 1 2 sampleStoreAfter sampleStore
      (by decide) (by decide) (by decide) rfl rfl).1,
   (@C3_round_trip sampleStore idA idB 1 2 sampleStoreAfter sampleStore
      (by decide) (by decide) (by decide) rfl rfl).2.1,
   (@C3_round_trip sampleStore idA idB 1 2 sampleStoreAfter sampleStore
      (by decide) (by decide) (by decide) rfl rfl).2.2 idA⟩

theorem contains_filter_contains (l1 l2 : List String) (x : String) :
    ((l1.filter fun y => l2.contains y).contains x) = (l1.contains x && l2.contains x) := by
  rw [Bool.eq_iff_iff]
  simp [List.elem_iff, List.mem_filter, Bool.and_eq_true]

theorem contains_eq_false (l : List String) (x : String) (h : x ∉ l) : l.contains x = false :=
  Bool.eq_false_iff.mpr (fun hc => h (List.elem_iff.mp hc))

/-- C6: for well-formed distinct identifiers, `mutualFollowers` fails
with `NotFound` if either user is missing; otherwise it returns exactly
the `{id, username}` views of the stored users in the intersection of
the two follower-id sets, and an empty sequence (success, not an error)
when the intersection is empty. -/
theorem C6_mutual_followers (store : Store) (a b : String)
    (hv1 : isValidObjectId a = true) (hv2 : isValidObjectId b = true) (hne : a ≠ b) :
    (findUser store a = none ∨ findUser store b = none →
      getCommonFollowers store a b = .error .NOT_FOUND) ∧
    (∀ u1 u2, findUser store a = some u1 → findUser store b = some u2 →
      getCommonFollowers store a b = .ok (mutualFollowersSpec store u1 u2) ∧
      ((∀ x ∈ followerIds u1, x ∉ followerIds u2) →
        getCommonFollowers store a b = .ok [])) := by
  have hbeq : (a == b) = false := beq_eq_false_iff_ne.mpr hne
  constructor
  · intro hmiss
    rcases h1 : findUser store a with _ | u1
    · rcases h2 : findUser store b with _ | u2 <;>
        simp [getCommonFollowers, hv1, hv2, hbeq, h1, h2]
    · rcases h2 : findUser store b with _ | u2
      · simp [getCommonFollowers, hv1, hv2, hbeq, h1, h2]
      · rcases hmiss with hm | hm
        · exact Option.noConfusion (h1.symm.trans hm)
        · exact Option.noConfusion (h2.symm.trans hm)
  · intro u1 u2 h1 h2
    have hmain : getCommonFollowers store a b = .ok (mutualFollowersSpec store u1 u2) := by
      unfold getCommonFollowers mutualFollowersSpec
      rw [if_neg (by simp [hv1, hv2]), if_neg (by simp [hbeq]), h1, h2]
      simp only []
      congr 1
      have hfil : (store.filter fun u =>
          ((followerIds u1).filter fun y => (followerIds u2).contains y).contains u.id)
          = store.filter fun u =>
            (followerIds u1).contains u.id && (followerIds u2).contains u.id :=
        List.filter_congr fun u _ =>
          contains_filter_contains (followerIds u1) (followerIds u2) u.id
      rw [hfil]
    refine ⟨hmain, fun hempty => ?_⟩
    rw [hmain]
    have hnil : mutualFollowersSpec store u1 u2 = [] := by
      unfold mutualFollowersSpec
      rw [List.filter_eq_nil_iff.mpr ?_]
      · rfl
      intro u _
      by_cases hq : u.id ∈ followerIds u1
      · rw [contains_eq_false (followerIds u2) u.id (hempty u.id hq)]
        simp
      · rw [contains_eq_false (followerIds u1) u.id hq]
        simp
    rw [hnil]

theorem C6_mutual_followers_witness :
    getCommonFollowers mfStore idA idB = .ok [⟨idC, "carol"⟩] ∧
    getCommonFollowers sampleStore idA idC = .error .NOT_FOUND ∧
    getCommonFollowers mfStore idB idD = .ok [] := by
  refine ⟨?_, ?_, ?_⟩
  · exact ((C6_mutual_followers mfStore idA idB (by decide) (by decide) (by decide)).2
      ⟨idA, "alice", [⟨idC, 1⟩, ⟨idD, 2⟩], []⟩ ⟨idB, "bob", [⟨idC, 3⟩], []⟩ rfl rfl).1.trans
      (by rfl)
  · exact (C6_mutual_followers sampleStore idA idC (by decide) (by decide) (by decide)).1
      (Or.inr (by decide))
  · exact ((C6_mutual_followers mfStore idB idD (by decide) (by decide) (by decide)).2
      ⟨idB, "bob", [⟨idC, 3⟩], []⟩ ⟨idD, "dina", [], []⟩ rfl rfl).2 (by decide)

/-- C7: for well-formed distinct identifiers of two existing users, the
mutual-followers results in the two argument orders are equal (hence
equal as sets of `{id, username}` views). -/
theorem C7_mutual_followers_symmetric (store : Store) (a b : String)
    (hv1 : isValidObjectId a = true) (hv2 : isValidObjectId b = true) (hne : a ≠ b)
    (ha : (findUser store a).isSome = true) (hb : (findUser store b).isSome = true) :
    getCommonFollowers store a b = getCommonFollowers store b a := by
  rcases h1 : findUser store a with _ | u1
  · rw [h1] at ha
    simp at ha
  rcases h2 : findUser store b with _ | u2
  · rw [h2] at hb
    simp at hb
  unfold getCommonFollowers
  rw [if_neg (by simp [hv1, hv2]), if_neg (by simp [beq_eq_false_iff_ne.mpr hne]),
    if_neg (by simp [hv1, hv2]), if_neg (by simp [beq_eq_false_iff_ne.mpr (Ne.symm hne)]),
    h1, h2]
  simp only []
  congr 1
  have hfil : (store.filter fun u =>
      ((followerIds u1).filter fun y => (followerIds u2).contains y).contains u.id)
      = store.filter fun u =>
        ((followerIds u2).filter fun y => (followerIds u1).contains y).contains u.id :=
    List.filter_congr fun u _ => by
      rw [contains_filter_contains, contains_filter_contains, Bool.and_comm]
  rw [hfil]

theorem C7_mutual_followers_symmetric_witness :
    getCommonFollowers mfStore idA idB = getCommonFollowers mfStore idB idA :=
  C7_mutual_followers_symmetric mfStore idA idB (by decide) (by decide) (by decide)
    (by decide) (by decide)

theorem charListLt_total : ∀ x y : List Char,
    charListLt x y = true ∨ charListLt y x = true ∨ x = y
  | [], [] => Or.inr (Or.inr rfl)
  | [], _ :: _ => Or.inl (by simp [charListLt])
  | _ :: _, [] => Or.inr (Or.inl (by simp [charListLt]))
  | c :: cs, d :: ds => by
    rcases lt_trichotomy c d with h | h | h
    · exact Or.inl (by simp [charListLt, h])
    · subst h
      rcases charListLt_total cs ds with h' | h' | h'
      · exact Or.inl (by simp [charListLt, h'])
      · exact Or.inr (Or.inl (by simp [charListLt, h']))
      · exact Or.inr (Or.inr (by rw [h']))
    · exact Or.inr (Or.inl (by simp [charListLt, h]))

theorem toList_inj {a b : String} (h : a.toList = b.toList) : a = b := by
  cases a
  cases b
  simp only [String.toList] at h
  rw [h]

theorem strLe_trans {a b c : String} (hab : strLe a b = true) (hbc : strLe b c = true) :
    strLe a c = true := by
  rcases Bool.or_eq_true _ _ |>.mp hab with h1 | h1
  · rcases Bool.or_eq_true _ _ |>.mp hbc with h2 | h2
    · exact Bool.or_eq_true _ _ |>.mpr (Or.inl (charListLt_trans h1 h2))
    · have : b = c := beq_iff_eq.mp h2
      subst this
      exact Bool.or_eq_true _ _ |>.mpr (Or.inl h1)
  · have : a = b := beq_iff_eq.mp h1
    subst this
    exact hbc

theorem strLe_of_not_strLe {a b : String} (h : ¬ strLe a b = true) : strLe b a = true := by
  rcases charListLt_total a.toList b.toList with h1 | h1 | h1
  · exact absurd (Bool.or_eq_true _ _ |>.mpr (Or.inl h1)) h
  · exact Bool.or_eq_true _ _ |>.mpr (Or.inl h1)
  · have : a = b := toList_inj h1
    subst this
    exact absurd (Bool.or_eq_true _ _ |>.mpr (Or.inr (beq_iff_eq.mpr rfl))) h

theorem strLt_of_strLe_of_ne {a b : String} (hle : strLe a b = true) (hne : a ≠ b) :
    strLt a b = true := by
  rcases Bool.or_eq_true _ _ |>.mp hle with h1 | h1
  · exact h1
  · exact absurd (beq_iff_eq.mp h1) hne

theorem insertRow_perm (x : DailyCount) :
    ∀ l : List DailyCount, List.Perm (insertRow x l) (x :: l)
  | [] => List.Perm.refl _
  | y :: ys => by
    simp only [insertRow]
    by_cases hxy : strLe x.date y.date = true
    · rw [if_pos hxy]
    · rw [if_neg hxy]
      exact ((insertRow_perm x ys).cons y).trans (List.Perm.swap x y ys)

theorem sortRows_perm : ∀ l : List DailyCount, List.Perm (sortRows l) l
  | [] => List.Perm.refl _
  | x :: xs => (insertRow_perm x (sortRows xs)).trans ((sortRows_perm xs).cons x)

theorem insertRow_pairwise {x : DailyCount} :
    ∀ {l : List DailyCount}, l.Pairwise (fun a b => strLe a.date b.date = true) →
      (insertRow x l).Pairwise (fun a b => strLe a.date b.date = true)
  | [], _ => by simp [insertRow]
  | y :: ys, h => by
    simp only [insertRow]
    by_cases hxy : strLe x.date y.date = true
    · rw [if_pos hxy]
      refine List.Pairwise.cons ?_ h
      intro z hz
      rcases List.mem_cons.mp hz with hz' | hz'
      · rw [hz']
        exact hxy
      · exact strLe_trans hxy (List.rel_of_pairwise_cons h hz')
    · rw [if_neg hxy]
      refine List.Pairwise.cons ?_ (insertRow_pairwise (List.Pairwise.of_cons h))
      intro z hz
      rcases List.mem_cons.mp ((insertRow_perm x ys).mem_iff.mp hz) with hz' | hz'
      · rw [hz']
        exact strLe_of_not_strLe hxy
      · exact List.rel_of_pairwise_cons h hz'

theorem sortRows_pairwise : ∀ l : List DailyCount,
    (sortRows l).Pairwise (fun a b => strLe a.date b.date = true)
  | [] => List.Pairwise.nil
  | x :: xs => @insertRow_pairwise x (sortRows xs) (sortRows_pairwise xs)

/-- C8: for a well-formed `userId`, the daily query groups the user's
unwound follower edges by the UTC `%Y-%m-%d` string of their `date`,
returns one `{date, count}` row per occurring date whose count is the
number of follower edges with that date, sorted strictly ascending by
date; a user with no followers yields an empty sequence, not an
error. -/
theorem C8_daily_follower_counts (store : Store) (userId : String)
    (hv : isValidObjectId userId = true) :
    getFollowersCountDaily store userId = .ok (dailyCounts store userId) ∧
    (dailyCounts store userId).Pairwise (fun a b => strLt a.date b.date = true) ∧
    (∀ dc ∈ dailyCounts store userId,
      dc.count = dateCount store userId dc.date ∧ dc.date ∈ dailyDates store userId) ∧
    (∀ d ∈ dailyDates store userId, ∃ dc ∈ dailyCounts store userId, dc.date = d) ∧
    (unwoundFollowers store userId = [] → dailyCounts store userId = []) := by
  have hperm : List.Perm (dailyCounts store userId)
      ((dailyDates store userId).dedup.map fun d => ⟨d, dateCount store userId d⟩) :=
    sortRows_perm _
  have hgroupdates : (((dailyDates store userId).dedup.map
      fun d => (⟨d, dateCount store userId d⟩ : DailyCount)).map DailyCount.date)
      = (dailyDates store userId).dedup := by
    rw [List.map_map]
    exact List.map_id _
  have hnodup : ((dailyCounts store userId).map DailyCount.date).Nodup := by
    rw [(hperm.map DailyCount.date).nodup_iff, hgroupdates]
    exact List.nodup_dedup _
  refine ⟨?_, ?_, ?_, ?_, ?_⟩
  · simp [getFollowersCountDaily, hv]
  · have hsorted : (dailyCounts store userId).Pairwise
        (fun a b => strLe a.date b.date = true) :=
      sortRows_pairwise _
    have hne : (dailyCounts store userId).Pairwise
        (fun a b : DailyCount => a.date ≠ b.date) :=
      List.pairwise_map.mp hnodup
    exact (hsorted.and hne).imp fun hab => strLt_of_strLe_of_ne hab.1 hab.2
  · intro dc hdc
    obtain ⟨d, hd, hdc'⟩ := List.mem_map.mp (hperm.mem_iff.mp hdc)
    rw [← hdc']
    exact ⟨rfl, List.mem_dedup.mp hd⟩
  · intro d hd
    refine ⟨⟨d, dateCount store userId d⟩, ?_, rfl⟩
    exact hperm.mem_iff.mpr (List.mem_map_of_mem _ (List.mem_dedup.mpr hd))
  · intro hu
    have hdates : dailyDates store userId = [] := by
      rw [dailyDates, hu]
      rfl
    simp [dailyCounts, hdates, sortRows]

theorem C8_daily_follower_counts_witness :
    getFollowersCountDaily dcStore idB = .ok (dailyCounts dcStore idB) ∧
    dailyCounts dcStore idB = [⟨"1970-01-01", 2⟩, ⟨"1970-01-02", 1⟩] ∧
    (⟨"1970-01-01", 2⟩ : DailyCount).count = dateCount dcStore idB "1970-01-01" :=
  ⟨(C8_daily_follower_counts dcStore idB (by decide)).1,
   by decide,
   ((C8_daily_follower_counts dcStore idB (by decide)).2.2.1
     ⟨"1970-01-01", 2⟩ (by decide)).1⟩
